import Mathlib

/-!
Verification of `src/bigquery_worker.py` (`BigqueryWorker`): schema mapping,
table naming, incremental-load lifecycle, and date-bounded query/delete
construction, shallowly embedded in Lean.

The warehouse client (`google.cloud.bigquery.Client`) is an external
collaborator excluded from the source; where a claim depends on its
behaviour we model its call contract (get/create table, load with a write
disposition, list rows) as explicit state passing, following the contract
the spec assumes of it.
-/

namespace BQWorker

/-- Local (pandas/numpy) column dtypes occurring in the source's fixed
`type_map` of `_extract_schema`, plus a catch-all for any other dtype. -/
inductive Dtype where
  | objectD
  | int32
  | int64
  | float64
  | datetime64ns
  | datetimeTZUTC
  | otherD (s : String)
deriving DecidableEq, Repr

/-- BigQuery field types produced by `_extract_schema` and consumed by
`_extract_dtypes`. -/
inductive BQType where
  | STRING
  | INTEGER
  | FLOAT
  | DATE
deriving DecidableEq, Repr

/-- The spec's four semantic classes (Text, Integer, Float, Date); `none`
for a dtype outside the supported lookup table. -/
inductive SemClass where
  | text
  | integer
  | float
  | date
deriving DecidableEq, Repr

/-- Semantic class of a local dtype, per the spec's grouping. -/
def semClass : Dtype → Option SemClass
  | .objectD => some .text
  | .int32 => some .integer
  | .int64 => some .integer
  | .float64 => some .float
  | .datetime64ns => some .date
  | .datetimeTZUTC => some .date
  | .otherD _ => none

/-- A BigQuery schema field: (column name, field type), as built by
`bigquery.SchemaField(column_name, ...)` in `_extract_schema`. -/
structure SchemaField where
  name : String
  field_type : BQType
deriving DecidableEq, Repr

/-- A warehouse table: id plus schema, the attributes `_extract_dtypes`
and the lifecycle code read. -/
structure Table where
  table_id : String
  schema : List SchemaField
deriving DecidableEq, Repr

/-- Error taxonomy: `unmappableType` embeds the `KeyError` raised by
`type_map[dtype]` on an unmapped dtype (the spec's `UnmappableTypeError`);
`conflict` embeds `google.cloud.exceptions.Conflict`; `typeError` embeds
the client-side exception from calling `list_rows` on the absent marker
`None`. -/
inductive Err where
  | unmappableType (column : String)
  | conflict
  | typeError
deriving DecidableEq, Repr

/-- The forward lookup table of `_extract_schema` (lines 133-140):
object→STRING, int32/int64→INTEGER, float64→FLOAT,
datetime64[ns]→DATE, DatetimeTZDtype(UTC)→DATE; anything else is absent
from the map. -/
def typeMapForward : Dtype → Option BQType
  | .objectD => some .STRING
  | .int32 => some .INTEGER
  | .int64 => some .INTEGER
  | .float64 => some .FLOAT
  | .datetime64ns => some .DATE
  | .datetimeTZUTC => some .DATE
  | .otherD _ => none

/-- A dataframe, as far as schema inference is concerned: the ordered
(column name, dtype) pairs of `df.dtypes`. -/
abbrev Dataframe := List (String × Dtype)

/-- Embeds `_extract_schema(df)` (lines 130-143): map each column through the
fixed lookup table in order; an unmapped dtype raises (`KeyError`,
embedded as `Err.unmappableType`) at the first offending column. -/
def extract_schema : Dataframe → Except Err (List SchemaField)
  | [] => .ok []
  | (c, d) :: rest =>
    match typeMapForward d with
    | none => .error (.unmappableType c)
    | some t => (extract_schema rest).map (fun s => ⟨c, t⟩ :: s)

/-- The backward lookup table of `_extract_dtypes` (lines 147-152):
STRING→object, INTEGER→int64, FLOAT→float64, DATE→datetime64[ns]. -/
def typeMapBackward : BQType → Dtype
  | .STRING => .objectD
  | .INTEGER => .int64
  | .FLOAT => .float64
  | .DATE => .datetime64ns

/-- Embeds `_extract_dtypes(table)` (lines 145-155): for each schema field of the
table, the local dtype of its field type, keyed by field name (the Python
dict preserves insertion order). -/
def extract_dtypes (table : Table) : List (String × Dtype) :=
  table.schema.map (fun f => (f.name, typeMapBackward f.field_type))

/-- A row, as far as the filter predicates are concerned: its `itemname`
and its `date` (already formatted `YYYY-MM-DD`, on which SQL DATE order
coincides with string order). -/
structure Row where
  itemname : String
  date : String
deriving DecidableEq, Repr

/-- One WHERE-clause as the source renders it: `itemname IN (set)`,
`date >= 'd'`, or `date <= 'd'`. -/
inductive Clause where
  | itemnameIn (names : List String)
  | dateGe (d : String)
  | dateLe (d : String)
deriving DecidableEq, Repr

/-- SQL truth of one clause at a row. -/
def Clause.sat (row : Row) : Clause → Bool
  | .itemnameIn names => names.contains row.itemname
  | .dateGe d => d ≤ row.date
  | .dateLe d => row.date ≤ d

/-- SQL truth of a clause conjunction at a row (zero clauses: true). -/
def satAll (cs : List Clause) (row : Row) : Bool :=
  cs.all (Clause.sat row)

/-- Embeds `', '.join([f"'{x}'" for x in names])`: each name single-quoted,
comma-joined (lines 60, 75, 187). -/
def quoteJoin (names : List String) : String :=
  String.intercalate ", " (names.map (fun x => "\x27" ++ x ++ "\x27"))

/-- Render one clause with the read path's spelling (line 76-80). -/
def Clause.render : Clause → String
  | .itemnameIn names => "itemname IN (" ++ quoteJoin names ++ ")"
  | .dateGe d => "date >= \x27" ++ d ++ "\x27"
  | .dateLe d => "date <= \x27" ++ d ++ "\x27"

/-- Embeds `' AND '.join(wheres)` then `'WHERE ' + ...` if non-empty (lines
81-82, 101): the rendered clause text, empty when there are no clauses. -/
def whereText (cs : List Clause) : String :=
  if String.intercalate " AND " (cs.map Clause.render) = "" then ""
  else "WHERE " ++ String.intercalate " AND " (cs.map Clause.render)

/-- The read path's clause list, `get_daily_info_all` lines 73-80:
`itemname IN (...)` when `codeinfo_df` is supplied and non-empty, then
`date >= start` when `start_date` is supplied, then `date <= end` when
`end_date` is supplied. `codeinfo` is the `itemname` column of
`codeinfo_df` (`none` embeds `codeinfo_df is None`). -/
def readClauses (codeinfo : Option (List String)) (start_date end_date : Option String) :
    List Clause :=
  (match codeinfo with
    | some names => if names.isEmpty then [] else [Clause.itemnameIn names]
    | none => []) ++
  (match start_date with
    | some s => [Clause.dateGe s]
    | none => []) ++
  (match end_date with
    | some e => [Clause.dateLe e]
    | none => [])

/-- The union path's clause list, `save_daily_info_all` lines 98-100:
`date >= start` for the first of `[start_date, end_date]` when present,
`date <= end` for the second; no instrument-name clause at all. -/
def unionClauses (start_date end_date : Option String) : List Clause :=
  (match start_date with
    | some s => [Clause.dateGe s]
    | none => []) ++
  (match end_date with
    | some e => [Clause.dateLe e]
    | none => [])

/-- Embeds `pandas.Series.unique()`: distinct values in first-occurrence order
(used by the delete path, line 187). -/
def uniqueFirst : List String → List String
  | [] => []
  | x :: rest => x :: (uniqueFirst rest).filter (fun y => y ≠ x)

/-- The delete path's clause list, `delete_duplicated_rows` lines
185-193: the mandatory `date >= start_date_str`, then
`itemname in (unique names)` whenever `codeinfo_df is not None` (even
when it is empty). -/
def deleteClauses (start_date_str : String) (codeinfo : Option (List String)) :
    List Clause :=
  Clause.dateGe start_date_str ::
  (match codeinfo with
    | some names => [Clause.itemnameIn (uniqueFirst names)]
    | none => [])

/-- Per-instrument shard table name, lines 41, 52, 119:
`f'{info_type}_info_{itemcode}_{market}'`. -/
def shard_table_name (info_type itemcode market : String) : String :=
  info_type ++ "_info_" ++ itemcode ++ "_" ++ market

/-- A stored table together with its rows, for the read/delete/load
models. -/
structure StoredTable where
  table_id : String
  schema : List SchemaField
  rows : List Row
deriving DecidableEq, Repr

/-- Embeds `get_table_if_exists` (lines 16-23): `client.get_table` returning the
table, with a `NotFound` response recovered as the absent marker `None`. -/
def get_table_if_exists (tables : List StoredTable) (table_name : String) :
    Option StoredTable :=
  tables.find? (fun t => t.table_id == table_name)

/-- Embeds `client.list_rows(table)`: the client requires a table object; calling
it with the absent marker `None` raises client-side (embedded as
`Err.typeError`). -/
def list_rows : Option StoredTable → Except Err (List Row)
  | none => .error .typeError
  | some t => .ok t.rows

/-- Embeds `get_itemcodes_info` (lines 25-28): probe for `itemcodes_info`, then
unconditionally list its rows (absent table: the probe's `None` is passed
straight to `list_rows`). -/
def get_itemcodes_info (tables : List StoredTable) : Except Err (List Row) :=
  list_rows (get_table_if_exists tables "itemcodes_info")

/-- The row slicing of `_get_daily_info` (lines 121-126): set the date as
a sorted index, then `.loc[start:]` and `.loc[:end]` — label slicing on a
sorted unique index, i.e. keep the rows with `start ≤ date` and
`date ≤ end`. -/
def sliceRows (rows : List Row) (start_date end_date : Option String) : List Row :=
  let sorted := rows.insertionSort (fun a b => a.date ≤ b.date)
  let lower := match start_date with
    | some s => sorted.filter (fun r => s ≤ r.date)
    | none => sorted
  match end_date with
  | some e => lower.filter (fun r => r.date ≤ e)
  | none => lower

/-- Embeds `_get_daily_info` (lines 117-128): resolve the shard name, probe for
the table, unconditionally list its rows (absent shard: `None` reaches
`list_rows`), then slice. -/
def get_daily_info (info_type : String) (itemcode_info : String × String × String)
    (start_date end_date : Option String) (tables : List StoredTable) :
    Except Err (List Row) :=
  let (itemcode, _, market) := itemcode_info
  match list_rows (get_table_if_exists tables (shard_table_name info_type itemcode market)) with
  | .error e => .error e
  | .ok rows => .ok (sliceRows rows start_date end_date)

/-- Outcome of `delete_duplicated_rows`: either no contact with the
delete endpoint, or one DELETE query whose WHERE is the given clause
conjunction. -/
inductive DeleteOutcome where
  | noop
  | ranQuery (pred : List Clause)
deriving DecidableEq, Repr

/-- Embeds `delete_duplicated_rows` (lines 181-196): return immediately when the
table is absent; otherwise issue one DELETE whose predicate is
`date >= start_date_str` plus the optional unique-name restriction. -/
def delete_duplicated_rows (table_name start_date_str : String)
    (codeinfo : Option (List String)) (tables : List StoredTable) : DeleteOutcome :=
  match get_table_if_exists tables table_name with
  | none => .noop
  | some _ => .ranQuery (deleteClauses start_date_str codeinfo)

/-- Embeds the `bigquery.WriteDisposition` values used by the source. -/
inductive WriteDisposition where
  | WRITE_EMPTY
  | WRITE_TRUNCATE
  | WRITE_APPEND
deriving DecidableEq, Repr

/-- Warehouse state for the load lifecycle: the existing tables and the
ids of tables that already hold data. Models the external client's state
per the contract the spec assumes of it (§6): `LoadRows` with
`WRITE_EMPTY` into a table that already holds data reports `Conflict`. -/
structure LoadState where
  tables : List Table
  loaded : List String
deriving DecidableEq, Repr

/-- Embeds `client.get_table(table_ref)` against a `LoadState`. -/
def LoadState.get_table (st : LoadState) (table_name : String) : Option Table :=
  st.tables.find? (fun t => t.table_id == table_name)

/-- Embeds `client.create_table(table)`. -/
def LoadState.create_table (st : LoadState) (t : Table) : LoadState :=
  { st with tables := st.tables ++ [t] }

/-- Embeds `client.load_table_from_dataframe` plus `job.result()` under a write
disposition: `WRITE_EMPTY` into a table already holding data reports
`Conflict`; otherwise the load succeeds and the table holds data. -/
def LoadState.load (st : LoadState) (table_name : String) (wd : WriteDisposition) :
    Except Err LoadState :=
  match wd with
  | .WRITE_EMPTY =>
    if table_name ∈ st.loaded then .error .conflict
    else .ok { st with loaded := st.loaded ++ [table_name] }
  | .WRITE_TRUNCATE =>
    .ok { st with loaded := if table_name ∈ st.loaded then st.loaded else st.loaded ++ [table_name] }
  | .WRITE_APPEND =>
    .ok { st with loaded := if table_name ∈ st.loaded then st.loaded else st.loaded ++ [table_name] }

/-- Embeds `_save_info` (lines 157-179): extract the schema (an unmapped dtype
propagates from here), get-or-create the table, then load the dataframe;
a `Conflict` from the load is caught, logged and returned as `None`
(embedded as `.ok (none, _)` — the Skipped outcome), never re-raised. -/
def save_info (table_name : String) (df : Dataframe) (wd : WriteDisposition)
    (st : LoadState) : Except Err (Option Table × LoadState) :=
  match extract_schema df with
  | .error e => .error e
  | .ok schema =>
    let ts : Table × LoadState :=
      match st.get_table table_name with
      | some t => (t, st)
      | none =>
        let t : Table := ⟨table_name, schema⟩
        (t, st.create_table t)
    match ts.2.load table_name wd with
    | .error .conflict => .ok (none, ts.2)
    | .error e => .error e
    | .ok st2 => .ok (some ts.1, st2)

/-- The dedented per-shard SELECT of `save_daily_info_all` (lines
102-106); with an empty where clause the third line is blank. -/
def selectText (table_name where_clause : String) : String :=
  "\nSELECT *\nFROM stock." ++ table_name ++ "\n" ++ where_clause ++ "\n"

/-- A submitted query job: the query text, its destination table and
write disposition (lines 109-112). -/
structure QueryJob where
  query : String
  destination : String
  write_disposition : WriteDisposition
deriving DecidableEq, Repr

/-- Embeds `save_daily_info_all` (lines 93-115): resolve
`f"{info_type}_{itemcode}_{market}"` for each instrument, keep only names
present in the warehouse's table listing, join the per-shard SELECTs with
`UNION ALL`, and submit the result unconditionally to
`client.query(...)` with destination `f'{info_type}_all'` — there is no
guard for zero matching shards. `codeinfo` is the (itemcode, market)
column pair of `codeinfo_df`. -/
def save_daily_info_all (info_type : String) (codeinfo : List (String × String))
    (wd : WriteDisposition) (start_date end_date : Option String)
    (all_table_names : List String) : QueryJob :=
  let table_names := (codeinfo.map (fun p => info_type ++ "_" ++ p.1 ++ "_" ++ p.2)).filter
    (fun x => all_table_names.contains x)
  let where_clause := whereText (unionClauses start_date end_date)
  let query := String.intercalate "UNION ALL" (table_names.map (fun t => selectText t where_clause))
  ⟨query, info_type ++ "_all", wd⟩

section SchemaTheorems

/-- The per-type round-trip fact: backward after forward preserves the
semantic class of every mapped dtype. -/
theorem semClass_backward_forward (d : Dtype) (t : BQType)
    (ht : typeMapForward d = some t) : semClass (typeMapBackward t) = semClass d := by
  cases d <;> cases t <;>
    simp [typeMapForward, typeMapBackward, semClass] at ht ⊢

/-- C1. For every batch whose columns all have one of the four supported
semantic types, `_extract_schema` succeeds, and `_extract_dtypes` of a
table created with the resulting schema reproduces every column's name
and semantic class unchanged (Text→STRING→text, Integer→INTEGER→int64,
Float→FLOAT→float64, Date→DATE→datetime). -/
theorem schema_roundtrip_semclass (name : String) (df : Dataframe)
    (h : ∀ p ∈ df, (semClass p.2).isSome) :
    ∃ s, extract_schema df = .ok s ∧
      (extract_dtypes ⟨name, s⟩).map (fun p => (p.1, semClass p.2)) =
        df.map (fun p => (p.1, semClass p.2)) := by
  induction df with
  | nil => exact ⟨[], rfl, rfl⟩
  | cons hd tl ih =>
    obtain ⟨c, d⟩ := hd
    have hd1 : (semClass d).isSome := h _ (List.mem_cons_self _ _)
    obtain ⟨s, hs, hmap⟩ := ih (fun p hp => h p (List.mem_cons_of_mem _ hp))
    obtain ⟨t, ht⟩ : ∃ t, typeMapForward d = some t := by
      cases d <;> simp_all [semClass, typeMapForward]
    refine ⟨⟨c, t⟩ :: s, ?_, ?_⟩
    · simp [extract_schema, ht, hs, Except.map]
    · have hsem : semClass (typeMapBackward t) = semClass d :=
        semClass_backward_forward d t ht
      simp only [extract_dtypes, List.map_cons, List.map_map] at hmap ⊢
      simp [hsem, hmap]

/-- Closed witness for C1: a four-column batch covering all supported
semantic classes round-trips. -/
theorem schema_roundtrip_semclass_witness :
    ∃ s, extract_schema
        [("n", .objectD), ("q", .int64), ("p", .float64), ("date", .datetime64ns)] = .ok s ∧
      (extract_dtypes ⟨"itemcodes_info", s⟩).map (fun p => (p.1, semClass p.2)) =
        ([("n", .objectD), ("q", .int64), ("p", .float64), ("date", .datetime64ns)] :
          Dataframe).map (fun p => (p.1, semClass p.2)) :=
  schema_roundtrip_semclass "itemcodes_info" _ (by decide)

/-- C4. For every batch with at least one column whose dtype is outside
the fixed lookup table, `_extract_schema` fails with
`UnmappableTypeError` naming some such column — it never returns a
schema, so no column is silently dropped or coerced. -/
theorem unmapped_dtype_fails (df : Dataframe)
    (h : ∃ p ∈ df, typeMapForward p.2 = none) :
    ∃ c, extract_schema df = .error (.unmappableType c) ∧
      ∃ d, (c, d) ∈ df ∧ typeMapForward d = none := by
  induction df with
  | nil => simp at h
  | cons hd tl ih =>
    obtain ⟨c0, d0⟩ := hd
    by_cases h0 : typeMapForward d0 = none
    · exact ⟨c0, by simp [extract_schema, h0], d0, List.mem_cons_self _ _, h0⟩
    · obtain ⟨t0, ht0⟩ := Option.ne_none_iff_exists'.mp h0
      have htl : ∃ p ∈ tl, typeMapForward p.2 = none := by
        obtain ⟨p, hp, hpn⟩ := h
        rcases List.mem_cons.mp hp with hp | hp
        · exact absurd hpn (by simp [hp, ht0])
        · exact ⟨p, hp, hpn⟩
      obtain ⟨c, hc, d, hd, hdn⟩ := ih htl
      refine ⟨c, ?_, d, List.mem_cons_of_mem _ hd, hdn⟩
      simp [extract_schema, ht0, hc, Except.map]

/-- Closed witness for C4: a batch with a float32 column (absent from the
lookup table) fails naming that column. -/
theorem unmapped_dtype_fails_witness :
    ∃ c, extract_schema [("n", .objectD), ("x", .otherD "float32")] =
        .error (.unmappableType c) ∧
      ∃ d, (c, d) ∈ ([("n", .objectD), ("x", .otherD "float32")] : Dataframe) ∧
        typeMapForward d = none :=
  unmapped_dtype_fails _ ⟨("x", .otherD "float32"), by decide, rfl⟩

end SchemaTheorems

section PredicateTheorems

/-- Unfolding of `String.intercalate.go` as a fold. -/
theorem intercalate_go_spec (a sep : String) (l : List String) :
    String.intercalate.go a sep l = l.foldl (fun acc x => acc ++ sep ++ x) a := by
  induction l generalizing a with
  | nil => simp [String.intercalate.go]
  | cons b t ih => simp [String.intercalate.go, ih]

/-- Every rendered clause is a non-empty string. -/
theorem render_length_pos (c : Clause) : 0 < c.render.length := by
  cases c with
  | itemnameIn names =>
    simp only [Clause.render, String.length_append]
    have h : ("itemname IN (" : String).length = 13 := rfl
    omega
  | dateGe d =>
    simp only [Clause.render, String.length_append]
    have h : ("date >= \x27" : String).length = 9 := rfl
    omega
  | dateLe d =>
    simp only [Clause.render, String.length_append]
    have h : ("date <= \x27" : String).length = 9 := rfl
    omega

/-- The fold underlying `intercalate` never shrinks below its seed. -/
theorem foldl_sep_length_le (sep : String) (l : List String) (a : String) :
    a.length ≤ (l.foldl (fun acc x => acc ++ sep ++ x) a).length := by
  induction l generalizing a with
  | nil => simp
  | cons b t ih =>
    calc a.length ≤ (a ++ sep ++ b).length := by
          simp [String.length_append]; omega
      _ ≤ _ := ih (a ++ sep ++ b)

/-- A non-empty clause list renders with the `WHERE ` prefix. -/
theorem whereText_cons (c : Clause) (cs : List Clause) :
    whereText (c :: cs) =
      "WHERE " ++ String.intercalate " AND " ((c :: cs).map Clause.render) := by
  have hne : ¬String.intercalate " AND " ((c :: cs).map Clause.render) = "" := by
    intro h
    have hlen := congrArg String.length h
    have hle := foldl_sep_length_le " AND " (cs.map Clause.render) c.render
    rw [List.map_cons] at hlen
    simp only [String.intercalate, intercalate_go_spec] at hlen
    have := render_length_pos c
    rw [hlen] at hle
    simp at hle
    omega
  simp only [whereText, if_neg hne]

/-- C5. The predicate builder renders exactly the conjunction of the
clauses for the supplied arguments: with start, end and a non-empty name
set, `WHERE itemname IN (set) AND date >= 'start' AND date <= 'end'`,
satisfied by exactly the rows with the name in the set and the date in
[start, end]; with no arguments, no WHERE text at all and every row
satisfies the predicate. -/
theorem read_predicate_spec (ns : List String) (s e : String) (hns : ns ≠ []) :
    (whereText (readClauses (some ns) (some s) (some e)) =
      "WHERE " ++ "itemname IN (" ++ quoteJoin ns ++ ")" ++ " AND " ++
        ("date >= \x27" ++ s ++ "\x27") ++ " AND " ++ ("date <= \x27" ++ e ++ "\x27")) ∧
    (∀ row : Row, satAll (readClauses (some ns) (some s) (some e)) row = true ↔
      (row.itemname ∈ ns ∧ s ≤ row.date ∧ row.date ≤ e)) ∧
    whereText (readClauses none none none) = "" ∧
    (∀ row : Row, satAll (readClauses none none none) row = true) := by
  have hcl : readClauses (some ns) (some s) (some e) =
      [Clause.itemnameIn ns, Clause.dateGe s, Clause.dateLe e] := by
    simp [readClauses, hns]
  refine ⟨?_, ?_, rfl, fun row => rfl⟩
  · rw [hcl, whereText_cons]
    apply String.ext
    simp [String.intercalate, intercalate_go_spec, Clause.render, String.data_append]
  · intro row
    rw [hcl]
    simp [satAll, Clause.sat, List.elem_iff]

/-- Closed witness for C5: the spec's example, names {A, B} and the
January 2024 bounds. -/
theorem read_predicate_spec_witness :
    whereText (readClauses (some ["A", "B"]) (some "2024-01-01") (some "2024-01-31")) =
        "WHERE " ++ "itemname IN (" ++ quoteJoin ["A", "B"] ++ ")" ++ " AND " ++
          ("date >= \x272024-01-01\x27") ++ " AND " ++ ("date <= \x272024-01-31\x27") ∧
      (satAll (readClauses (some ["A", "B"]) (some "2024-01-01") (some "2024-01-31"))
          ⟨"A", "2024-01-15"⟩ = true ↔
        ("A" ∈ ["A", "B"] ∧ "2024-01-01" ≤ "2024-01-15" ∧ "2024-01-15" ≤ "2024-01-31")) := by
  obtain ⟨h1, h2, h3, h4⟩ :=
    read_predicate_spec ["A", "B"] "2024-01-01" "2024-01-31" (by decide)
  exact ⟨by simpa using h1, h2 ⟨"A", "2024-01-15"⟩⟩

end PredicateTheorems

section SliceTheorems

/-- C6. The `[start:end]` slice of `_get_daily_info`, applied after
setting the sorted date index, is inclusive on both bounds: for rows with
distinct dates, a row is returned exactly when it is in the table and its
date is `≥` every supplied start bound and `≤` every supplied end
bound. -/
theorem slice_rows_inclusive (rows : List Row) (sd ed : Option String)
    (hnd : (rows.map Row.date).Nodup) :
    ∀ r : Row, r ∈ sliceRows rows sd ed ↔
      (r ∈ rows ∧ (∀ s, sd = some s → s ≤ r.date) ∧ (∀ e, ed = some e → r.date ≤ e)) := by
  intro r
  unfold sliceRows
  cases sd <;> cases ed <;>
    simp [List.mem_filter, List.mem_insertionSort, and_assoc] <;>
    (intros; tauto)

/-- Closed witness for C6: the spec's ten-day example sliced from
2024-01-05 keeps 2024-01-07 (it is in range). -/
theorem slice_rows_inclusive_witness :
    (⟨"A", "2024-01-07"⟩ : Row) ∈ sliceRows
        [⟨"A", "2024-01-01"⟩, ⟨"A", "2024-01-02"⟩, ⟨"A", "2024-01-03"⟩,
         ⟨"A", "2024-01-04"⟩, ⟨"A", "2024-01-05"⟩, ⟨"A", "2024-01-06"⟩,
         ⟨"A", "2024-01-07"⟩, ⟨"A", "2024-01-08"⟩, ⟨"A", "2024-01-09"⟩,
         ⟨"A", "2024-01-10"⟩] (some "2024-01-05") none ↔
      ((⟨"A", "2024-01-07"⟩ : Row) ∈
        ([⟨"A", "2024-01-01"⟩, ⟨"A", "2024-01-02"⟩, ⟨"A", "2024-01-03"⟩,
          ⟨"A", "2024-01-04"⟩, ⟨"A", "2024-01-05"⟩, ⟨"A", "2024-01-06"⟩,
          ⟨"A", "2024-01-07"⟩, ⟨"A", "2024-01-08"⟩, ⟨"A", "2024-01-09"⟩,
          ⟨"A", "2024-01-10"⟩] : List Row) ∧
        (∀ s, (some "2024-01-05" : Option String) = some s → s ≤ "2024-01-07") ∧
        (∀ e, (none : Option String) = some e → "2024-01-07" ≤ e)) :=
  slice_rows_inclusive _ (some "2024-01-05") none (by decide) ⟨"A", "2024-01-07"⟩

end SliceTheorems

section LoadTheorems

/-- C2. A duplicate-load conflict reported by the warehouse during
`_save_info` is recovered as the distinct Skipped outcome (`None`) rather
than a raised error; in particular two successive `WRITE_EMPTY` loads of
the same batch into the same fresh table yield exactly one
created-and-loaded outcome and then one Skipped outcome, with no error on
the second call. -/
theorem save_info_duplicate_load (table_name : String) (df : Dataframe)
    (s : List SchemaField) (hs : extract_schema df = .ok s) :
    (∀ st : LoadState, table_name ∈ st.loaded →
      ∃ st2, save_info table_name df .WRITE_EMPTY st = .ok (none, st2)) ∧
    (∀ st : LoadState, st.get_table table_name = none → table_name ∉ st.loaded →
      ∃ t st1, save_info table_name df .WRITE_EMPTY st = .ok (some t, st1) ∧
        save_info table_name df .WRITE_EMPTY st1 = .ok (none, st1)) := by
  constructor
  · intro st hmem
    cases hg : st.get_table table_name <;>
      simp [save_info, hs, hg, LoadState.load, LoadState.create_table, hmem]
  · intro st hget hload
    have hget' : List.find? (fun t => t.table_id == table_name) st.tables = none := hget
    refine ⟨⟨table_name, s⟩,
      ⟨st.tables ++ [⟨table_name, s⟩], st.loaded ++ [table_name]⟩, ?_, ?_⟩
    · simp [save_info, hs, LoadState.get_table, hget', LoadState.load,
        LoadState.create_table, hload]
    · simp [save_info, hs, LoadState.get_table, List.find?_append, hget',
        LoadState.load, LoadState.create_table]

/-- Closed witness for C2: loading a one-column daily batch twice into a
fresh warehouse produces one created table and then one skip. -/
theorem save_info_duplicate_load_witness :
    ∃ t st1, save_info "daily_items_info_005930_KOSPI" [("date", .datetime64ns)]
        .WRITE_EMPTY ⟨[], []⟩ = .ok (some t, st1) ∧
      save_info "daily_items_info_005930_KOSPI" [("date", .datetime64ns)]
        .WRITE_EMPTY st1 = .ok (none, st1) :=
  (save_info_duplicate_load "daily_items_info_005930_KOSPI" [("date", .datetime64ns)]
    [⟨"date", .DATE⟩] rfl).2 ⟨[], []⟩ rfl (by decide)

end LoadTheorems

section UnionQueryTheorems

/-- C3 (code evaluation at the failing input). With one instrument whose
shard is absent from the warehouse's table listing, zero shard names
survive the filter and `save_daily_info_all` submits the empty query
string to the warehouse instead of failing fast with `NoDataError` (no
such guard, or error, exists in the source). -/
theorem save_daily_info_all_empty_query_submitted :
    save_daily_info_all "daily_items_info" [("005930", "KOSPI")] .WRITE_EMPTY
        none none [] =
      ⟨"", "daily_items_info_all", .WRITE_EMPTY⟩ := by
  rfl

end UnionQueryTheorems

section DeleteTheorems

/-- Membership is preserved by `uniqueFirst` (pandas `unique()`). -/
theorem mem_uniqueFirst (x : String) (l : List String) :
    x ∈ uniqueFirst l ↔ x ∈ l := by
  induction l with
  | nil => simp [uniqueFirst]
  | cons a t ih =>
    by_cases hx : x = a
    · simp [uniqueFirst, hx]
    · simp [uniqueFirst, List.mem_filter, hx, ih]

/-- C7. `delete_duplicated_rows` on an absent table returns without
contacting the delete endpoint; on a present table it issues one DELETE
whose predicate holds of exactly the rows with `date >= watermark`,
restricted to the supplied instrument names when a set is supplied. -/
theorem delete_duplicated_rows_spec (table_name start_date_str : String)
    (codeinfo : Option (List String)) (tables : List StoredTable) :
    (get_table_if_exists tables table_name = none →
      delete_duplicated_rows table_name start_date_str codeinfo tables = .noop) ∧
    (get_table_if_exists tables table_name ≠ none →
      ∃ pred, delete_duplicated_rows table_name start_date_str codeinfo tables =
          .ranQuery pred ∧
        ∀ row : Row, satAll pred row = true ↔
          (start_date_str ≤ row.date ∧
            ∀ ns, codeinfo = some ns → row.itemname ∈ ns)) := by
  constructor
  · intro h
    simp [delete_duplicated_rows, h]
  · intro h
    obtain ⟨t, ht⟩ := Option.ne_none_iff_exists'.mp h
    refine ⟨deleteClauses start_date_str codeinfo, by simp [delete_duplicated_rows, ht], ?_⟩
    intro row
    cases codeinfo with
    | none => simp [deleteClauses, satAll, Clause.sat]
    | some ns =>
      simp [deleteClauses, satAll, Clause.sat, List.elem_iff, mem_uniqueFirst]

/-- Closed witness for C7: an empty warehouse makes the delete a no-op,
and a one-table warehouse yields the watermark predicate. -/
theorem delete_duplicated_rows_spec_witness :
    delete_duplicated_rows "daily_items_all" "2024-01-03" none [] = .noop ∧
      ∃ pred, delete_duplicated_rows "daily_items_all" "2024-01-03" none
          [⟨"daily_items_all", [], []⟩] = .ranQuery pred ∧
        ∀ row : Row, satAll pred row = true ↔
          ("2024-01-03" ≤ row.date ∧
            ∀ ns, (none : Option (List String)) = some ns → row.itemname ∈ ns) :=
  ⟨(delete_duplicated_rows_spec "daily_items_all" "2024-01-03" none []).1 rfl,
   (delete_duplicated_rows_spec "daily_items_all" "2024-01-03" none
      [⟨"daily_items_all", [], []⟩]).2 (by decide)⟩

end DeleteTheorems

section NamingTheorems

/-- Splitting a character list at a marker character absent from the
suffix is unambiguous: the marker is the last of its kind. -/
theorem marker_split_right (r1 : List Char) (r2 s1 s2 : List Char)
    (h1 : ('_' : Char) ∉ s1) (h2 : ('_' : Char) ∉ s2)
    (h : r1 ++ '_' :: s1 = r2 ++ '_' :: s2) : r1 = r2 ∧ s1 = s2 := by
  induction r1 generalizing r2 with
  | nil =>
    cases r2 with
    | nil => simpa using h
    | cons b t =>
      simp only [List.nil_append, List.cons_append, List.cons.injEq] at h
      have hmem : ('_' : Char) ∈ s1 := by
        rw [h.2]
        exact List.mem_append_right t (List.mem_cons_self _ _)
      exact absurd hmem h1
  | cons a t1 ih =>
    cases r2 with
    | nil =>
      simp only [List.nil_append, List.cons_append, List.cons.injEq] at h
      have hmem : ('_' : Char) ∈ s2 := by
        rw [← h.2]
        exact List.mem_append_right t1 (List.mem_cons_self _ _)
      exact absurd hmem h2
    | cons b t2 =>
      simp only [List.cons_append, List.cons.injEq] at h
      obtain ⟨hp, hs⟩ := ih t2 h.2
      exact ⟨by rw [h.1, hp], hs⟩

/-- C8 counterexample. The shard-name template is not injective over all
triples: the two distinct triples (daily_items, x_y, z) and
(daily_items, x, y_z) render the same table name. -/
theorem shard_table_name_collision :
    shard_table_name "daily_items" "x_y" "z" =
        shard_table_name "daily_items" "x" "y_z" ∧
      ("daily_items", "x_y", "z") ≠ ("daily_items", "x", "y_z") := by
  constructor
  · rfl
  · decide

/-- C8 as amended. The shard-name resolution is injective on every pair
of triples whose code and market components contain no underscore (the
separator character): equal rendered names force equal triples. -/
theorem shard_table_name_injective_underscore_free
    (t1 c1 m1 t2 c2 m2 : String)
    (hc1 : ('_' : Char) ∉ c1.data) (hm1 : ('_' : Char) ∉ m1.data)
    (hc2 : ('_' : Char) ∉ c2.data) (hm2 : ('_' : Char) ∉ m2.data)
    (h : shard_table_name t1 c1 m1 = shard_table_name t2 c2 m2) :
    t1 = t2 ∧ c1 = c2 ∧ m1 = m2 := by
  have regroup : ∀ (t c m : String), (shard_table_name t c m).data =
      (t.data ++ ('_' :: 'i' :: 'n' :: 'f' :: 'o' :: '_' :: c.data)) ++ '_' :: m.data := by
    intro t c m
    simp [shard_table_name, String.data_append]
  have hd := congrArg String.data h
  rw [regroup, regroup] at hd
  obtain ⟨hic, hm⟩ := marker_split_right _ _ _ _ hm1 hm2 hd
  have hic' : (t1.data ++ ['_', 'i', 'n', 'f', 'o']) ++ '_' :: c1.data =
      (t2.data ++ ['_', 'i', 'n', 'f', 'o']) ++ '_' :: c2.data := by
    have e : ∀ (t c : List Char), t ++ ('_' :: 'i' :: 'n' :: 'f' :: 'o' :: '_' :: c) =
        (t ++ ['_', 'i', 'n', 'f', 'o']) ++ '_' :: c := by
      intro t c
      simp
    rw [← e, ← e]
    exact hic
  obtain ⟨hti, hc⟩ := marker_split_right _ _ _ _ hc1 hc2 hic'
  exact ⟨String.ext (List.append_cancel_right hti), String.ext hc, String.ext hm⟩

/-- Closed witness for C8 (amended): underscore-free code and market
components, equal names force equal triples. -/
theorem shard_table_name_injective_underscore_free_witness :
    ("daily_items" : String) = "daily_items" ∧ ("005930" : String) = "005930" ∧
      ("KOSPI" : String) = "KOSPI" :=
  shard_table_name_injective_underscore_free "daily_items" "005930" "KOSPI"
    "daily_items" "005930" "KOSPI" (by decide) (by decide) (by decide) (by decide) rfl

end NamingTheorems

section PredicateSharingTheorems

/-- C9 counterexample. The filter predicate is not constructed
equivalently across the paths: for start date 2024-01-01, no end date and
the empty instrument set, the read path renders an unconditional name
filter (the row (A, 2024-01-01) matches) while the delete path renders
`itemname in ()` (the same row does not match). -/
theorem predicate_paths_differ :
    satAll (readClauses (some []) (some "2024-01-01") none)
        ⟨"A", "2024-01-01"⟩ = true ∧
      satAll (deleteClauses "2024-01-01" (some []))
        ⟨"A", "2024-01-01"⟩ = false := by
  constructor
  · simp [satAll, readClauses, Clause.sat]
  · simp [satAll, deleteClauses, uniqueFirst, Clause.sat]

/-- C9 as amended. The date-bound clauses are constructed identically
across the paths: for every combination of optional start and end the
read and union paths build the same clause list when no instrument set is
supplied, and the delete path builds exactly the read path's
start-date clause when no instrument set is supplied; the instrument-name
filter, however, is built per path (union: never; delete: whenever a set
is supplied, even empty; read: only for a non-empty set). -/
theorem predicate_date_clauses_shared :
    (∀ start_date end_date : Option String,
      readClauses none start_date end_date = unionClauses start_date end_date) ∧
    (∀ s : String, deleteClauses s none = readClauses none (some s) none) ∧
    (∀ ns : List String, ∀ start_date end_date : Option String, ns ≠ [] →
      readClauses (some ns) start_date end_date =
        Clause.itemnameIn ns :: unionClauses start_date end_date) := by
  refine ⟨fun sd ed => rfl, fun s => rfl, fun ns sd ed hns => ?_⟩
  simp [readClauses, unionClauses, hns]

/-- Closed witness for C9 (amended): the non-empty-set clause shape at a
concrete input. -/
theorem predicate_date_clauses_shared_witness :
    readClauses (some ["A"]) (some "2024-01-01") none =
      Clause.itemnameIn ["A"] :: unionClauses (some "2024-01-01") none :=
  predicate_date_clauses_shared.2.2 ["A"] (some "2024-01-01") none (by decide)

end PredicateSharingTheorems

section ReadAbsentTheorems

/-- C10. Absence is recoverable only for the probe and the delete path:
on an absent table both read operations pass the absent marker returned
by `get_table_if_exists` straight to `list_rows`, so they fail with the
client-side exception instead of returning an empty result or the
marker. -/
theorem absent_table_reads_raise (tables : List StoredTable)
    (info_type itemcode itemname market : String) :
    (get_table_if_exists tables "itemcodes_info" = none →
      get_itemcodes_info tables = .error .typeError) ∧
    (get_table_if_exists tables (shard_table_name info_type itemcode market) = none →
      get_daily_info info_type (itemcode, itemname, market) none none tables =
        .error .typeError) := by
  constructor
  · intro h
    simp [get_itemcodes_info, h, list_rows]
  · intro h
    simp [get_daily_info, h, list_rows]

/-- Closed witness for C10: the empty warehouse makes both reads fail
with the client-side exception. -/
theorem absent_table_reads_raise_witness :
    get_itemcodes_info [] = .error .typeError ∧
      get_daily_info "daily_items" ("005930", "Samsung", "KOSPI") none none [] =
        .error .typeError :=
  ⟨(absent_table_reads_raise [] "daily_items" "005930" "Samsung" "KOSPI").1 rfl,
   (absent_table_reads_raise [] "daily_items" "005930" "Samsung" "KOSPI").2 rfl⟩

end ReadAbsentTheorems

end BQWorker
